import Mathlib

/-!
Shallow embedding of the legit object store (crates/legit/src/objects.rs,
src/settings.rs, src/repository.rs) and proofs about its specification.

Modelling conventions:
* Rust byte slices and Vec<u8> become List Nat with each element < 256;
  machine arithmetic is Nat with explicit reductions modulo 2^32 / 256.
* Rust Result becomes Except Err; a panic (an .unwrap() on a failing value)
  is modelled by the distinguished error Err.panicked.
* The filesystem is an association list from paths (lists of path
  components) to file contents.  flate2 zlib compression is a bijective
  byte encoding supplied by an external library, so the store is modelled
  at the level of the decompressed bytes.
* The sha1 crate digest is embedded as an executable SHA-1 over byte lists.
-/

set_option maxRecDepth 40000

namespace Legit

/-- UTF-8 bytes of an ASCII string literal, used for canonical tokens. -/
def strBytes (s : String) : List Nat := s.toList.map Char.toNat

/-! ## SHA-1 (the sha1 crate's digest, as used by ObjectHash::try_from) -/

def w32 : Nat := 4294967296

/-- Rotate a 32-bit word left by n bits. -/
def rotl (n x : Nat) : Nat := ((x <<< n) % w32) ||| (x >>> (32 - n))

/-- Big-endian 8-byte rendering of the 64-bit message bit length. -/
def lenBytes (n : Nat) : List Nat :=
  [n / 2 ^ 56 % 256, n / 2 ^ 48 % 256, n / 2 ^ 40 % 256, n / 2 ^ 32 % 256,
   n / 2 ^ 24 % 256, n / 2 ^ 16 % 256, n / 2 ^ 8 % 256, n % 256]

/-- SHA-1 padding: 0x80, zeros to 56 mod 64, then the bit length. -/
def padMsg (m : List Nat) : List Nat :=
  m ++ [128] ++ List.replicate ((119 - m.length % 64) % 64) 0 ++ lenBytes (8 * m.length)

/-- Split into 64-byte blocks; the fuel argument keeps recursion structural. -/
def toBlocksFuel : Nat → List Nat → List (List Nat)
  | 0, _ => []
  | _, [] => []
  | fuel + 1, l => l.take 64 :: toBlocksFuel fuel (l.drop 64)

def toBlocks (l : List Nat) : List (List Nat) := toBlocksFuel l.length l

/-- Big-endian 32-bit words from bytes. -/
def bytesToWords : List Nat → List Nat
  | b0 :: b1 :: b2 :: b3 :: rest =>
      (((b0 * 256 + b1) * 256 + b2) * 256 + b3) :: bytesToWords rest
  | _ => []

/-- Message-schedule expansion, most recent word first. -/
def sha1ExpandRev : Nat → List Nat → List Nat
  | 0, acc => acc
  | n + 1, acc =>
      sha1ExpandRev n
        (rotl 1 ((acc.getD 2 0) ^^^ (acc.getD 7 0) ^^^ (acc.getD 13 0) ^^^ (acc.getD 15 0)) :: acc)

def schedule (ws : List Nat) : List Nat := (sha1ExpandRev 64 ws.reverse).reverse

def sha1F (i b c d : Nat) : Nat :=
  if i < 20 then (b &&& c) ||| (((w32 - 1) ^^^ b) &&& d)
  else if i < 40 then b ^^^ c ^^^ d
  else if i < 60 then (b &&& c) ||| (b &&& d) ||| (c &&& d)
  else b ^^^ c ^^^ d

def sha1K (i : Nat) : Nat :=
  if i < 20 then 0x5A827999
  else if i < 40 then 0x6ED9EBA1
  else if i < 60 then 0x8F1BBCDC
  else 0xCA62C1D6

def sha1Rounds : Nat → List Nat → Nat × Nat × Nat × Nat × Nat → Nat × Nat × Nat × Nat × Nat
  | _, [], st => st
  | i, w :: ws, (a, b, c, d, e) =>
      sha1Rounds (i + 1) ws
        ((rotl 5 a + sha1F i b c d + e + sha1K i + w) % w32, a, rotl 30 b, c, d)

def sha1Block (st : Nat × Nat × Nat × Nat × Nat) (block : List Nat) :
    Nat × Nat × Nat × Nat × Nat :=
  let (h0, h1, h2, h3, h4) := st
  let (a, b, c, d, e) := sha1Rounds 0 (schedule (bytesToWords block)) st
  ((h0 + a) % w32, (h1 + b) % w32, (h2 + c) % w32, (h3 + d) % w32, (h4 + e) % w32)

def sha1Init : Nat × Nat × Nat × Nat × Nat :=
  (0x67452301, 0xEFCDAB89, 0x98BADCFE, 0x10325476, 0xC3D2E1F0)

/-- Big-endian bytes of one 32-bit state word. -/
def wordBytes (w : Nat) : List Nat :=
  [w / 16777216 % 256, w / 65536 % 256, w / 256 % 256, w % 256]

/-- Big-endian serialization of the five final state words. -/
def stateBytes (st : Nat × Nat × Nat × Nat × Nat) : List Nat :=
  wordBytes st.1 ++ wordBytes st.2.1 ++ wordBytes st.2.2.1 ++
    wordBytes st.2.2.2.1 ++ wordBytes st.2.2.2.2

/-- The 20-byte SHA-1 digest of a byte sequence. -/
def sha1Digest (m : List Nat) : List Nat :=
  stateBytes ((toBlocks (padMsg (m.map (· % 256)))).foldl sha1Block sha1Init)

/-! ## Errors

One constructor per bail!/anyhow! site reached by the modelled code, plus
Err.panicked for .unwrap() panics, which are not Result errors in Rust. -/

inductive Err where
  | invalidHashLength (got : Nat)
  | invalidHashBytes (got : Nat)
  | panicked
  | notFound
  | alreadyExists
  | missingNullTerminator
  | missingTypeOrSize
  | invalidObjectType
  | invalidSize
  | sizeMismatch (declared actual : Nat)
  | noParent
deriving DecidableEq

instance {ε α : Type} [DecidableEq ε] [DecidableEq α] : DecidableEq (Except ε α) :=
  fun a b =>
    match a, b with
    | .error e, .error f =>
        if h : e = f then isTrue (h ▸ rfl) else isFalse fun hc => h (Except.error.inj hc)
    | .ok x, .ok y =>
        if h : x = y then isTrue (h ▸ rfl) else isFalse fun hc => h (Except.ok.inj hc)
    | .error _, .ok _ => isFalse fun hc => Except.noConfusion hc
    | .ok _, .error _ => isFalse fun hc => Except.noConfusion hc

/-! ## ObjectHash hex encoding and decoding -/

/-- One uppercase hex digit character code, as produced by {b:02X}. -/
def hexDig (d : Nat) : Nat := if d < 10 then 48 + d else 55 + d

/-- The two hex characters of one byte. -/
def byteHex (b : Nat) : List Nat := [hexDig (b / 16), hexDig (b % 16)]

/-- ObjectHash::to_hex: fold over the 20 bytes, writing {b:02X} each. -/
def toHex : List Nat → List Nat
  | [] => []
  | b :: rest => byteHex b ++ toHex rest

/-- ObjectHash::as_path_parts: split the hex string after two characters. -/
def asPathParts (h : List Nat) : List Nat × List Nat :=
  ((toHex h).take 2, (toHex h).drop 2)

/-- Value of a single hex digit character, in any case (from_str_radix 16). -/
def hexVal (c : Nat) : Option Nat :=
  if 48 ≤ c ∧ c ≤ 57 then some (c - 48)
  else if 65 ≤ c ∧ c ≤ 70 then some (c - 55)
  else if 97 ≤ c ∧ c ≤ 102 then some (c - 87)
  else none

/-- A character u8::from_str_radix(-, 16) accepts as a digit. -/
def isHexDigit (c : Nat) : Bool := (hexVal c).isSome

/-- u8::from_str_radix on a two-byte chunk: an optional leading sign
(only the plus sign, code 43, since u8 is unsigned) then hex digits. -/
def parseChunk2 (c0 c1 : Nat) : Option Nat :=
  if c0 = 43 then hexVal c1
  else
    match hexVal c0, hexVal c1 with
    | some v0, some v1 => some (16 * v0 + v1)
    | _, _ => none

/-- u8::from_str_radix on a final one-byte chunk. -/
def parseChunk1 (c : Nat) : Option Nat :=
  if c = 43 then none else hexVal c

/-- hex.as_bytes().chunks(2) with both unwraps: none models the panic. -/
def decodePairs : List Nat → Option (List Nat)
  | [] => some []
  | [c] => (parseChunk1 c).map (fun v => [v])
  | c0 :: c1 :: rest =>
      match parseChunk2 c0 c1, decodePairs rest with
      | some v, some vs => some (v :: vs)
      | _, _ => none

/-- ObjectHash::from_hex.  The length test uses the byte length of the
input, the chunk loop unwraps each u8::from_str_radix result (a panic on
failure), and the final length test re-checks the decoded byte count. -/
def fromHex (s : List Nat) : Except Err (List Nat) :=
  if s.length ≠ 40 then .error (.invalidHashLength s.length)
  else
    match decodePairs s with
    | none => .error .panicked
    | some bs => if bs.length ≠ 20 then .error (.invalidHashBytes bs.length) else .ok bs

/-! ## String::from_utf8_lossy, re-encoded to UTF-8 bytes

Valid UTF-8 sequences are copied verbatim; each maximal invalid subpart is
replaced by U+FFFD, whose UTF-8 encoding is EF BF BD.  Truncated sequences
at the end of input are replaced by a single U+FFFD. -/

def rep : List Nat := [0xEF, 0xBF, 0xBD]

def isCont (b : Nat) : Bool := 0x80 ≤ b ∧ b ≤ 0xBF

/-- Admissible second byte of a three-byte sequence with lead byte b. -/
def cont3ok (b c : Nat) : Bool :=
  if b = 0xE0 then 0xA0 ≤ c ∧ c ≤ 0xBF
  else if b = 0xED then 0x80 ≤ c ∧ c ≤ 0x9F
  else isCont c

/-- Admissible second byte of a four-byte sequence with lead byte b. -/
def cont4ok (b c : Nat) : Bool :=
  if b = 0xF0 then 0x90 ≤ c ∧ c ≤ 0xBF
  else if b = 0xF4 then 0x80 ≤ c ∧ c ≤ 0x8F
  else isCont c

def utf8Lossy : List Nat → List Nat
  | [] => []
  | b :: rest =>
    if b ≤ 0x7F then b :: utf8Lossy rest
    else if 0xC2 ≤ b ∧ b ≤ 0xDF then
      match rest with
      | [] => rep
      | c1 :: r1 =>
        if isCont c1 then b :: c1 :: utf8Lossy r1 else rep ++ utf8Lossy (c1 :: r1)
    else if 0xE0 ≤ b ∧ b ≤ 0xEF then
      match rest with
      | [] => rep
      | c1 :: r1 =>
        if cont3ok b c1 then
          match r1 with
          | [] => rep
          | c2 :: r2 =>
            if isCont c2 then b :: c1 :: c2 :: utf8Lossy r2 else rep ++ utf8Lossy (c2 :: r2)
        else rep ++ utf8Lossy (c1 :: r1)
    else if 0xF0 ≤ b ∧ b ≤ 0xF4 then
      match rest with
      | [] => rep
      | c1 :: r1 =>
        if cont4ok b c1 then
          match r1 with
          | [] => rep
          | c2 :: r2 =>
            if isCont c2 then
              match r2 with
              | [] => rep
              | c3 :: r3 =>
                if isCont c3 then b :: c1 :: c2 :: c3 :: utf8Lossy r3
                else rep ++ utf8Lossy (c3 :: r3)
            else rep ++ utf8Lossy (c2 :: r2)
        else rep ++ utf8Lossy (c1 :: r1)
    else rep ++ utf8Lossy rest

/-! ## Decimal rendering and parsing -/

/-- Decimal digits of a usize as written by Display; fuel keeps the
recursion structural and n itself is always enough fuel. -/
def natDigitsFuel : Nat → Nat → List Nat
  | 0, n => [48 + n % 10]
  | fuel + 1, n => if n < 10 then [48 + n] else natDigitsFuel fuel (n / 10) ++ [48 + n % 10]

def natDigits (n : Nat) : List Nat := natDigitsFuel n n

def digitVal (c : Nat) : Option Nat :=
  if 48 ≤ c ∧ c ≤ 57 then some (c - 48) else none

/-- Digit-accumulation loop of usize::from_str; errors past usize::MAX. -/
def parseDigitsAux : Nat → List Nat → Option Nat
  | acc, [] => some acc
  | acc, c :: cs =>
      match digitVal c with
      | some d => if acc * 10 + d < 2 ^ 64 then parseDigitsAux (acc * 10 + d) cs else none
      | none => none

/-- str::parse::<usize>: an optional leading plus sign then at least one
decimal digit. -/
def parseUsize (s : List Nat) : Option Nat :=
  match s with
  | [] => none
  | 43 :: cs => match cs with | [] => none | _ :: _ => parseDigitsAux 0 cs
  | cs => parseDigitsAux 0 cs

/-! ## Object model (crates/legit/src/objects.rs) -/

inductive ObjectType where
  | blob
  | tree
  | commit
  | tag
deriving DecidableEq

/-- strum Display with serialize_all = "lowercase". -/
def objectTypeBytes : ObjectType → List Nat
  | .blob => strBytes "blob"
  | .tree => strBytes "tree"
  | .commit => strBytes "commit"
  | .tag => strBytes "tag"

/-- strum EnumString FromStr: exact match of the lowercase token. -/
def parseObjectType (s : List Nat) : Option ObjectType :=
  if s = strBytes "blob" then some .blob
  else if s = strBytes "tree" then some .tree
  else if s = strBytes "commit" then some .commit
  else if s = strBytes "tag" then some .tag
  else none

structure ObjectM where
  objectType : ObjectType
  data : List Nat
  hash : List Nat
deriving DecidableEq

/-- UTF-8 bytes of format!("{} {}\0{}", object_type, data.len(),
String::from_utf8_lossy(&data)), the string Object::new hashes. -/
def objectDataBytes (t : ObjectType) (data : List Nat) : List Nat :=
  objectTypeBytes t ++ [32] ++ natDigits data.length ++ [0] ++ utf8Lossy data

/-- Hash computed by Object::new via ObjectHash::try_from. -/
def objectHashOf (t : ObjectType) (data : List Nat) : List Nat :=
  sha1Digest (objectDataBytes t data)

/-- Object::new.  The impossible digest-length bail is dropped: the SHA-1
digest always has 20 bytes (sha1Digest_length below), so the Rust Result
is always Ok. -/
def objectNew (t : ObjectType) (data : List Nat) : ObjectM :=
  ⟨t, data, objectHashOf t data⟩

/-- Object::header: format!("{} {}\0", object_type, data.len()). -/
def headerBytes (t : ObjectType) (len : Nat) : List Nat :=
  objectTypeBytes t ++ [32] ++ natDigits len ++ [0]

/-! ## The object store (read_object / write_object)

Paths are lists of components (each a byte string); the filesystem is an
association list from paths to decompressed file contents. -/

abbrev Path : Type := List (List Nat)

abbrev FS : Type := List (Path × List Nat)

structure RepoM where
  gitdir : Path
deriving DecidableEq

def fsLookup (fs : FS) (p : Path) : Option (List Nat) :=
  match fs with
  | [] => none
  | (q, c) :: rest => if q = p then some c else fsLookup rest p

/-- repo.gitdir().join("objects").join(dir).join(file) for a hash. -/
def pathOfHash (h : List Nat) (repo : RepoM) : Path :=
  repo.gitdir ++ [strBytes "objects", (asPathParts h).1, (asPathParts h).2]

/-- Object::file_path. -/
def objectFilePath (o : ObjectM) (repo : RepoM) : Path :=
  pathOfHash o.hash repo

/-- buffer.split(|&b| b == 0): all null-separated segments. -/
def splitNull : List Nat → List (List Nat)
  | [] => [[]]
  | b :: rest =>
    if b = 0 then [] :: splitNull rest
    else
      match splitNull rest with
      | s :: ss => (b :: s) :: ss
      | [] => [[b]]

/-- str::split_once(c): segments before and after the first occurrence. -/
def splitOnce (sep : Nat) : List Nat → Option (List Nat × List Nat)
  | [] => none
  | b :: rest =>
    if b = sep then some ([], rest)
    else
      match splitOnce sep rest with
      | some (l, r) => some (b :: l, r)
      | none => none

/-- The phase of read_object after the null split: lossy-decode the
header segment, split it at the first space, parse the type token and
the size token, check the payload length, and rebuild via Object::new. -/
def parseHeaderAndData (header data : List Nat) : Except Err ObjectM :=
  match splitOnce 32 (utf8Lossy header) with
  | none => .error .missingTypeOrSize
  | some (tb, sb) =>
    match parseObjectType tb with
    | none => .error .invalidObjectType
    | some t =>
      match parseUsize sb with
      | none => .error .invalidSize
      | some size =>
        if data.length ≠ size then .error (.sizeMismatch size data.length)
        else .ok (objectNew t data)

/-- The phase of read_object on the decompressed buffer:
buffer.split(|&b| b == 0).collect_tuple::<(_,_)>() is Some exactly when
the split yields two segments, anything else is the missing-null bail. -/
def readBuffer (buffer : List Nat) : Except Err ObjectM :=
  match splitNull buffer with
  | [header, data] => parseHeaderAndData header data
  | _ => .error .missingNullTerminator

/-- read_object.  The stored file content stands for the decompressed
bytes (zlib decoding by flate2 is elided); a missing path is the
"Object not found" bail. -/
def readObject (repo : RepoM) (h : List Nat) (fs : FS) : Except Err ObjectM :=
  match fsLookup fs (pathOfHash h repo) with
  | none => .error .notFound
  | some buffer => readBuffer buffer

/-- write_object: bail if the target path exists, otherwise store the
header followed by the raw data (zlib encoding elided as in readObject)
and return the object's hash.  The returned FS is the store afterward. -/
def writeObject (o : ObjectM) (repo : RepoM) (fs : FS) : Except Err (List Nat) × FS :=
  match fsLookup fs (objectFilePath o repo) with
  | some _ => (.error .alreadyExists, fs)
  | none =>
      (.ok o.hash,
       (objectFilePath o repo, headerBytes o.objectType o.data.length ++ o.data) :: fs)

/-! ## Settings resolution (src/settings.rs)

Settings::new builds a config-rs Config from, in order of addition, the
bundled defaults file, the LEGIT-prefixed environment, and, when given,
the user config file.  In config-rs a source added later overrides the
earlier ones, so resolution is a left fold in which a later source's
value for a key replaces an earlier one's. -/

/-- Lookup of a key inside one configuration source. -/
def sourceGet (src : List (String × Nat)) (key : String) : Option Nat :=
  match src with
  | [] => none
  | (k, v) :: rest => if k = key then some v else sourceGet rest key

/-- config-rs merge: later sources take priority. -/
def mergedGet (sources : List (List (String × Nat))) (key : String) : Option Nat :=
  sources.foldl
    (fun acc src =>
      match sourceGet src key with
      | some v => some v
      | none => acc)
    none

/-- The source list built by Settings::new(use_config_path). -/
def settingsSources (defaults env : List (String × Nat))
    (cfg : Option (List (String × Nat))) : List (List (String × Nat)) :=
  [defaults, env] ++ cfg.toList

/-- Resolved value of one option after Settings::new. -/
def settingsGet (defaults env : List (String × Nat))
    (cfg : Option (List (String × Nat))) (key : String) : Option Nat :=
  mergedGet (settingsSources defaults env cfg) key

/-! ## Repository::find (src/repository.rs)

Directories are absolute paths given as component lists; the root is [].
The filesystem is the list of existing directory entries.  Settings::new
inside find only loads the bundled defaults and the environment and is
modelled as always succeeding, which matches a run where both sources are
well formed; its outcome is independent of the path walk. -/

def dotGit : String := ".git"

structure RepositoryR where
  worktree : List String
  gitdir : List String
deriving DecidableEq

/-- Repository::find: check path/.git, else recurse into the parent;
the root path has no parent, which is the "No parent directory" bail. -/
def findRepo (fs : List (List String)) (path : List String) : Except Err RepositoryR :=
  if (path ++ [dotGit]) ∈ fs then .ok ⟨path, path ++ [dotGit]⟩
  else if _h : path = [] then .error .noParent
  else findRepo fs path.dropLast
termination_by path.length
decreasing_by
  simp only [List.length_dropLast]
  have hl : path.length ≠ 0 := fun hz => _h (List.length_eq_zero.mp hz)
  omega

/-! ## Segment structure of the null split -/

theorem splitNull_ne_nil (l : List Nat) : splitNull l ≠ [] := by
  induction l with
  | nil => simp [splitNull]
  | cons b rest ih =>
      simp only [splitNull]
      split
      · simp
      · cases hs : splitNull rest with
        | nil => exact absurd hs ih
        | cons s ss => simp

theorem splitNull_length (l : List Nat) : (splitNull l).length = l.count 0 + 1 := by
  induction l with
  | nil => simp [splitNull]
  | cons b rest ih =>
      simp only [splitNull]
      split
      · rename_i hb
        subst hb
        simp only [List.length_cons, List.count_cons_self]
        omega
      · rename_i hb
        cases hs : splitNull rest with
        | nil => exact absurd hs (splitNull_ne_nil rest)
        | cons s ss =>
            rw [hs] at ih
            simp only [List.length_cons] at ih ⊢
            rw [List.count_cons_of_ne (fun he => hb he.symm)]
            omega

/-- Reference repository and hash used by the concrete store theorems. -/
def repoA : RepoM := ⟨[strBytes ".git"]⟩

def hashZ : List Nat := List.replicate 20 0

theorem parseHeaderAndData_ne_missingNull (header data : List Nat) :
    parseHeaderAndData header data ≠ Except.error .missingNullTerminator := by
  unfold parseHeaderAndData
  repeat' split
  all_goals simp

theorem readBuffer_missingNull_iff (buffer : List Nat) :
    (readBuffer buffer = Except.error .missingNullTerminator) ↔ buffer.count 0 ≠ 1 := by
  have hlen := splitNull_length buffer
  unfold readBuffer
  cases hsp : splitNull buffer with
  | nil => exact absurd hsp (splitNull_ne_nil buffer)
  | cons s1 tl =>
    rw [hsp] at hlen
    cases tl with
    | nil =>
        simp only [List.length_cons, List.length_nil] at hlen
        constructor
        · intro _; omega
        · intro _; rfl
    | cons s2 tl2 =>
      cases tl2 with
      | nil =>
          simp only [List.length_cons, List.length_nil] at hlen
          have hc : buffer.count 0 = 1 := by omega
          rw [hc]
          simp only [ne_eq, not_true_eq_false, iff_false]
          show ¬parseHeaderAndData s1 s2 = Except.error .missingNullTerminator
          exact parseHeaderAndData_ne_missingNull s1 s2
      | cons s3 tl3 =>
          simp only [List.length_cons] at hlen
          constructor
          · intro _; omega
          · intro _; rfl

/-- C3 (amended): read_object rejects a stored object with the
missing-null-terminator error exactly when the number of null bytes in
the decompressed content differs from one, because collect_tuple demands
exactly two null-separated segments; a single null byte is required, not
merely present. -/
theorem readObject_missingNull_iff (repo : RepoM) (h : List Nat) (fs : FS)
    (buffer : List Nat) (hl : fsLookup fs (pathOfHash h repo) = some buffer) :
    (readObject repo h fs = Except.error .missingNullTerminator) ↔ buffer.count 0 ≠ 1 := by
  have he : readObject repo h fs = readBuffer buffer := by
    unfold readObject
    rw [hl]
  rw [he]
  exact readBuffer_missingNull_iff buffer

/-- Witness for C3's amended theorem at a concrete store. -/
theorem readObject_missingNull_iff_witness :
    (readObject repoA hashZ [(pathOfHash hashZ repoA, strBytes "blob x")] =
      Except.error .missingNullTerminator) ↔ (strBytes "blob x").count 0 ≠ 1 :=
  readObject_missingNull_iff repoA hashZ _ _ (by decide)

/-- Counterexample for C3 as stated: a decompressed content that does
contain a null byte (two of them: the header terminator and one inside
the payload) is rejected with the missing-null-terminator error. -/
theorem read_null_in_payload_rejected :
    (0 ∈ strBytes "blob 2" ++ [0, 97, 0]) ∧
    readObject repoA hashZ [(pathOfHash hashZ repoA, strBytes "blob 2" ++ [0, 97, 0])] =
      Except.error .missingNullTerminator := by decide

/-! ## Round trips through the store -/

/-- C1 (code bug): a freshly created blob whose payload is a single null
byte is written successfully, but reading it back by its own hash fails
with the missing-null-terminator error instead of returning the object:
the write stores header plus raw payload, whose two null bytes make the
read-side split produce three segments. -/
theorem write_read_null_payload :
    (writeObject (objectNew .blob [0]) repoA []).1 = Except.ok (objectNew .blob [0]).hash ∧
    readObject repoA (objectNew .blob [0]).hash (writeObject (objectNew .blob [0]) repoA []).2 =
      Except.error .missingNullTerminator := by decide

/-- C2 (code bug): for the non-UTF-8 payload [255], Object::new hashes
the lossy re-encoding (the replacement character EF BF BD) instead of the
raw byte, so the stored hash differs from the SHA-1 of header plus raw
data; the payloads [254] and [255] even collide on the same hash. -/
theorem objectNew_hash_lossy :
    (objectNew .blob [255]).hash ≠ sha1Digest (headerBytes .blob 1 ++ [255]) ∧
    objectDataBytes .blob [255] = headerBytes .blob 1 ++ [0xEF, 0xBF, 0xBD] ∧
    (objectNew .blob [254]).hash = (objectNew .blob [255]).hash := by decide

/-! ## Absence of a hash comparison on the read path -/

/-- C8 (amended): on success read_object returns the object rebuilt by
Object::new from the parsed kind and payload, whose hash is re-derived
from the content; the hash used to locate the file is never compared
against it and no hash-mismatch error exists. -/
theorem readObject_hash_rederived (repo : RepoM) (h : List Nat) (fs : FS) (obj : ObjectM)
    (hr : readObject repo h fs = Except.ok obj) :
    obj.hash = objectHashOf obj.objectType obj.data := by
  unfold readObject readBuffer parseHeaderAndData at hr
  repeat' split at hr
  all_goals try exact Except.noConfusion hr
  obtain rfl := Except.ok.inj hr
  rfl

/-- Witness for C8's amended theorem at a concrete store. -/
theorem readObject_hash_rederived_witness :
    (objectNew .blob [98]).hash =
      objectHashOf (objectNew .blob [98]).objectType (objectNew .blob [98]).data :=
  readObject_hash_rederived repoA hashZ
    [(pathOfHash hashZ repoA, strBytes "blob 1" ++ [0, 98])]
    (objectNew .blob [98]) (by decide)

/-- Counterexample for C8 as stated: a stored object whose content hash
differs from the path hash (all zeroes) is read back successfully, with
no hash-mismatch failure. -/
theorem read_no_hash_check :
    readObject repoA hashZ [(pathOfHash hashZ repoA, strBytes "blob 1" ++ [0, 97])] =
      Except.ok (objectNew .blob [97]) ∧
    (objectNew .blob [97]).hash ≠ hashZ := by decide

/-! ## Repository discovery -/

/-- C9: find started three levels below a directory containing .git,
with no nearer .git entry, returns that ancestor as worktree; started
anywhere with no .git in the whole ancestry it reaches the root and
fails with the no-parent error. -/
theorem findRepo_spec (fs : List (List String)) :
    (∀ (p : List String) (a b c : String),
      (p ++ [dotGit]) ∈ fs →
      (p ++ [a, dotGit]) ∉ fs →
      (p ++ [a, b, dotGit]) ∉ fs →
      (p ++ [a, b, c, dotGit]) ∉ fs →
      findRepo fs (p ++ [a, b, c]) = Except.ok ⟨p, p ++ [dotGit]⟩) ∧
    (∀ start : List String, (∀ n : Nat, (start.take n ++ [dotGit]) ∉ fs) →
      findRepo fs start = Except.error .noParent) := by
  constructor
  · intro p a b c hp h1 h2 h3
    have e3 : (p ++ [a, b, c]).dropLast = p ++ [a, b] := by
      rw [show p ++ [a, b, c] = (p ++ [a, b]) ++ [c] by simp, List.dropLast_concat]
    have e2 : (p ++ [a, b]).dropLast = p ++ [a] := by
      rw [show p ++ [a, b] = (p ++ [a]) ++ [b] by simp, List.dropLast_concat]
    have e1 : (p ++ [a]).dropLast = p := List.dropLast_concat
    unfold findRepo
    rw [if_neg (by simpa using h3), dif_neg (by simp), e3]
    unfold findRepo
    rw [if_neg (by simpa using h2), dif_neg (by simp), e2]
    unfold findRepo
    rw [if_neg (by simpa using h1), dif_neg (by simp), e1]
    unfold findRepo
    rw [if_pos hp]
  · intro start
    induction start using List.reverseRecOn with
    | nil =>
        intro hno
        have h0 := hno 0
        unfold findRepo
        rw [if_neg (by simpa using h0), dif_pos rfl]
    | append_singleton l a ih =>
        intro hno
        have hself : (l ++ [a]).take (l.length + 1) = l ++ [a] :=
          List.take_of_length_le (by simp)
        have hx := hno (l.length + 1)
        rw [hself] at hx
        unfold findRepo
        rw [if_neg hx, dif_neg (by simp), List.dropLast_concat]
        apply ih
        intro n
        rcases le_or_lt n l.length with hle | hlt
        · have ht : (l ++ [a]).take n = l.take n := List.take_append_of_le_length hle
          have hy := hno n
          rw [ht] at hy
          exact hy
        · have hg : l.take n = l := List.take_of_length_le (by omega)
          have h2 : (l ++ [a]).take l.length = l := List.take_left l [a]
          have hy := hno l.length
          rw [h2] at hy
          rw [hg]
          exact hy

/-- Witness for C9 at a concrete directory tree. -/
theorem findRepo_spec_witness :
    findRepo [["home", ".git"]] (["home"] ++ ["src", "a", "b"]) =
      Except.ok ⟨["home"], ["home"] ++ [dotGit]⟩ ∧
    findRepo [] ["x", "y"] = Except.error .noParent :=
  ⟨(findRepo_spec [["home", ".git"]]).1 ["home"] "src" "a" "b"
      (by simp [dotGit]) (by simp [dotGit]) (by simp [dotGit]) (by simp [dotGit]),
   (findRepo_spec []).2 ["x", "y"] (by simp)⟩

/-! Golden test vectors for the SHA-1 embedding. -/

example : toHex (sha1Digest []) = strBytes "DA39A3EE5E6B4B0D3255BFEF95601890AFD80709" := by
  decide

example : toHex (sha1Digest (strBytes "abc")) =
    strBytes "A9993E364706816ABA3E25717850C26C9CD0D89D" := by
  decide

/-! The canonical empty blob: git hashes "blob 0\0" to e69de29b... -/

example : toHex (objectNew .blob []).hash =
    strBytes "E69DE29BB2D1D6434B8B29AE775AD8C2E48C5391" := by
  decide

/-! ## Shape of SHA-1 digests -/

theorem wordBytes_lt (w : Nat) : ∀ x ∈ wordBytes w, x < 256 := by
  intro x hx
  simp only [wordBytes, List.mem_cons, List.not_mem_nil, or_false] at hx
  rcases hx with h | h | h | h <;> subst h <;> omega

theorem stateBytes_length (st : Nat × Nat × Nat × Nat × Nat) : (stateBytes st).length = 20 := by
  simp [stateBytes, wordBytes]

theorem stateBytes_lt (st : Nat × Nat × Nat × Nat × Nat) : ∀ x ∈ stateBytes st, x < 256 := by
  intro x hx
  simp only [stateBytes, List.mem_append] at hx
  rcases hx with ((((h | h) | h) | h) | h) <;> exact wordBytes_lt _ x h

theorem sha1Digest_length (m : List Nat) : (sha1Digest m).length = 20 :=
  stateBytes_length _

theorem sha1Digest_lt (m : List Nat) : ∀ x ∈ sha1Digest m, x < 256 :=
  stateBytes_lt _

/-! ## Properties of the hex encoding -/

/-- The characters {b:02X} can produce: digits and uppercase letters. -/
def isUpperHexDigit (c : Nat) : Bool :=
  (decide (48 ≤ c ∧ c ≤ 57)) || (decide (65 ≤ c ∧ c ≤ 70))

theorem hexDig_upper : ∀ d, d < 16 → isUpperHexDigit (hexDig d) = true := by decide

theorem hexVal_hexDig : ∀ d, d < 16 → hexVal (hexDig d) = some d := by decide

theorem hexDig_ne_plus : ∀ d, d < 16 → hexDig d ≠ 43 := by decide

theorem toHex_length (l : List Nat) : (toHex l).length = 2 * l.length := by
  induction l with
  | nil => rfl
  | cons b rest ih =>
      simp only [toHex, byteHex, List.length_append, List.length_cons, List.length_nil, ih]
      omega

theorem toHex_upper (l : List Nat) (hl : ∀ x ∈ l, x < 256) :
    ∀ c ∈ toHex l, isUpperHexDigit c = true := by
  induction l with
  | nil => simp [toHex]
  | cons b rest ih =>
      intro c hc
      have hb : b < 256 := hl b (by simp)
      simp only [toHex, byteHex, List.mem_append, List.mem_cons, List.not_mem_nil,
        or_false] at hc
      rcases hc with (h | h) | h
      · subst h; exact hexDig_upper _ (by omega)
      · subst h; exact hexDig_upper _ (by omega)
      · exact ih (fun x hx => hl x (by simp [hx])) c h

theorem decodePairs_toHex (l : List Nat) (hl : ∀ x ∈ l, x < 256) :
    decodePairs (toHex l) = some l := by
  induction l with
  | nil => rfl
  | cons b rest ih =>
      have hb : b < 256 := hl b (by simp)
      have h1 : b / 16 < 16 := by omega
      have h2 : b % 16 < 16 := by omega
      show decodePairs (hexDig (b / 16) :: hexDig (b % 16) :: toHex rest) = some (b :: rest)
      simp only [decodePairs, parseChunk2, if_neg (hexDig_ne_plus _ h1),
        hexVal_hexDig _ h1, hexVal_hexDig _ h2, ih (fun x hx => hl x (by simp [hx]))]
      simp only [Option.some.injEq, List.cons.injEq]
      exact ⟨by omega, trivial⟩

/-- C6: for every byte sequence, the hash computed from it renders through
to_hex to a hex string that from_hex decodes back to the same hash. -/
theorem fromHex_toHex_roundtrip (m : List Nat) :
    fromHex (toHex (sha1Digest m)) = .ok (sha1Digest m) := by
  have h20 : (sha1Digest m).length = 20 := sha1Digest_length m
  have h40 : (toHex (sha1Digest m)).length = 40 := by rw [toHex_length, h20]
  have hdec := decodePairs_toHex _ (sha1Digest_lt m)
  unfold fromHex
  rw [h40, hdec]
  simp [h20]

/-- C10: to_hex of a 20-byte hash is 40 uppercase hex characters, and
as_path_parts splits it into a 2-character directory and a 38-character
file name over the same uppercase alphabet. -/
theorem toHex_upper_shape (h : List Nat) (hlen : h.length = 20) (hlt : ∀ x ∈ h, x < 256) :
    (toHex h).length = 40 ∧ (∀ c ∈ toHex h, isUpperHexDigit c = true) ∧
    (asPathParts h).1.length = 2 ∧ (asPathParts h).2.length = 38 ∧
    (∀ c ∈ (asPathParts h).1, isUpperHexDigit c = true) ∧
    (∀ c ∈ (asPathParts h).2, isUpperHexDigit c = true) := by
  have hhl : (toHex h).length = 40 := by rw [toHex_length, hlen]
  have hup := toHex_upper h hlt
  refine ⟨hhl, hup, ?_, ?_, ?_, ?_⟩
  · simp [asPathParts, hhl]
  · simp [asPathParts, hhl]
  · intro c hc; exact hup c (List.take_subset _ _ hc)
  · intro c hc; exact hup c (List.drop_subset _ _ hc)

/-- Witness for C10 at a concrete hash value. -/
theorem toHex_upper_shape_witness :
    (toHex (List.replicate 20 255)).length = 40 ∧
    (∀ c ∈ toHex (List.replicate 20 255), isUpperHexDigit c = true) ∧
    (asPathParts (List.replicate 20 255)).1.length = 2 ∧
    (asPathParts (List.replicate 20 255)).2.length = 38 ∧
    (∀ c ∈ (asPathParts (List.replicate 20 255)).1, isUpperHexDigit c = true) ∧
    (∀ c ∈ (asPathParts (List.replicate 20 255)).2, isUpperHexDigit c = true) :=
  toHex_upper_shape (List.replicate 20 255) (by decide) (by decide)

/-! ## Behaviour of from_hex on arbitrary input -/

theorem decodePairs_allHex :
    ∀ s : List Nat, (∀ c ∈ s, isHexDigit c = true) →
      ∃ bs, decodePairs s = some bs ∧ bs.length = (s.length + 1) / 2
  | [], _ => ⟨[], rfl, rfl⟩
  | [c], h => by
      have hc : (hexVal c).isSome = true := h c (by simp)
      obtain ⟨v, hv⟩ := Option.isSome_iff_exists.mp hc
      have h43 : hexVal 43 = none := by decide
      have hne : c ≠ 43 := fun he => by rw [he, h43] at hv; exact Option.noConfusion hv
      exact ⟨[v], by simp [decodePairs, parseChunk1, if_neg hne, hv], by simp⟩
  | c0 :: c1 :: rest, h => by
      have hc0 : (hexVal c0).isSome = true := h c0 (by simp)
      have hc1 : (hexVal c1).isSome = true := h c1 (by simp)
      obtain ⟨v0, hv0⟩ := Option.isSome_iff_exists.mp hc0
      obtain ⟨v1, hv1⟩ := Option.isSome_iff_exists.mp hc1
      have h43 : hexVal 43 = none := by decide
      have hne : c0 ≠ 43 := fun he => by rw [he, h43] at hv0; exact Option.noConfusion hv0
      obtain ⟨bs, hbs, hlen⟩ :=
        decodePairs_allHex rest (fun c hcm => h c (by simp [hcm]))
      refine ⟨(16 * v0 + v1) :: bs, ?_, ?_⟩
      · simp [decodePairs, parseChunk2, if_neg hne, hv0, hv1, hbs]
      · simp only [List.length_cons, hlen]
        omega

/-- C5 (amended): from_hex fails with the invalid-hash-length error
exactly on inputs whose byte length is not 40; on a 40-byte input made of
hex digits it succeeds with the 20 decoded bytes.  (A 40-byte input with a
non-digit chunk panics instead of returning an error, and chunks of a plus
sign followed by a digit are also accepted; see the counterexample.) -/
theorem fromHex_spec (s : List Nat) :
    (s.length ≠ 40 → fromHex s = Except.error (.invalidHashLength s.length)) ∧
    (s.length = 40 → (∀ c ∈ s, isHexDigit c = true) →
      ∃ bs, fromHex s = Except.ok bs ∧ bs.length = 20 ∧ decodePairs s = some bs) := by
  constructor
  · intro hne
    unfold fromHex
    rw [if_pos hne]
  · intro hlen hhex
    obtain ⟨bs, hbs, hblen⟩ := decodePairs_allHex s hhex
    rw [hlen] at hblen
    have hb20 : bs.length = 20 := by omega
    refine ⟨bs, ?_, hb20, hbs⟩
    unfold fromHex
    rw [if_neg (show ¬s.length ≠ 40 by omega), hbs]
    simp [hb20]

/-- Witness for C5 at concrete inputs: a short input gets the length
error, a 40-digit input decodes successfully. -/
theorem fromHex_spec_witness :
    fromHex [48] = Except.error (.invalidHashLength 1) ∧
    ∃ bs, fromHex (List.replicate 40 48) = Except.ok bs ∧ bs.length = 20 ∧
      decodePairs (List.replicate 40 48) = some bs :=
  ⟨(fromHex_spec [48]).1 (by decide),
   (fromHex_spec (List.replicate 40 48)).2 (by decide) (by decide)⟩

/-- Counterexample for C5 as stated: forty letters z make from_hex panic
(unwrap of a failed from_str_radix) rather than return the invalid-hash
error, and a string of twenty "+F" chunks is not made of hex digits yet
succeeds. -/
theorem fromHex_counterexample :
    fromHex (List.replicate 40 122) = Except.error .panicked ∧
    fromHex (strBytes "+F+F+F+F+F+F+F+F+F+F+F+F+F+F+F+F+F+F+F+F") =
      Except.ok (List.replicate 20 15) ∧
    isHexDigit 43 = false := by decide

/-! ## Settings priority -/

/-- C7 (amended): the resolved settings take a key set in the given
config file from that file, overriding any environment value, because the
file source is added after the environment source. -/
theorem settings_file_beats_env (defaults env fileSrc : List (String × Nat))
    (key : String) (v : Nat) (hf : sourceGet fileSrc key = some v) :
    settingsGet defaults env (some fileSrc) key = some v := by
  simp [settingsGet, settingsSources, mergedGet, hf]

/-- Witness for C7's amended theorem at concrete sources. -/
theorem settings_file_beats_env_witness :
    settingsGet [("core.repositoryformatversion", 0)]
      [("core.repositoryformatversion", 5)]
      (some [("core.repositoryformatversion", 100)])
      "core.repositoryformatversion" = some 100 :=
  settings_file_beats_env _ _ _ _ _ (by decide)

/-- Counterexample for C7 as stated: with the version key set to 5 in the
environment and 100 in the config file, resolution yields the file value
100, not the environment value 5. -/
theorem settings_env_not_highest :
    settingsGet [("core.repositoryformatversion", 0)]
      [("core.repositoryformatversion", 5)]
      (some [("core.repositoryformatversion", 100)])
      "core.repositoryformatversion" = some 100 ∧
    settingsGet [("core.repositoryformatversion", 0)]
      [("core.repositoryformatversion", 5)]
      (some [("core.repositoryformatversion", 100)])
      "core.repositoryformatversion" ≠ some 5 := by decide

/-! ## Write-once behaviour of the store -/

/-- C4: writing an object whose target path is already occupied fails
with the already-exists error and leaves the occupying content intact. -/
theorem write_existing_unchanged (o : ObjectM) (repo : RepoM) (fs : FS) (c : List Nat)
    (hl : fsLookup fs (objectFilePath o repo) = some c) :
    (writeObject o repo fs).1 = Except.error .alreadyExists ∧
    fsLookup (writeObject o repo fs).2 (objectFilePath o repo) = some c := by
  unfold writeObject
  rw [hl]
  exact ⟨rfl, hl⟩

/-- Witness for C4 at a concrete object and store. -/
theorem write_existing_unchanged_witness :
    (writeObject (objectNew .blob [97]) ⟨[strBytes ".git"]⟩
      [(objectFilePath (objectNew .blob [97]) ⟨[strBytes ".git"]⟩, [1, 2, 3])]).1 =
      Except.error .alreadyExists ∧
    fsLookup
      (writeObject (objectNew .blob [97]) ⟨[strBytes ".git"]⟩
        [(objectFilePath (objectNew .blob [97]) ⟨[strBytes ".git"]⟩, [1, 2, 3])]).2
      (objectFilePath (objectNew .blob [97]) ⟨[strBytes ".git"]⟩) = some [1, 2, 3] :=
  write_existing_unchanged _ _ _ _ (by decide)

end Legit
